import Mathlib

/-!
Shallow embedding of `gui/webdisplay/src/TWebWindowsManager.cxx` (ROOT web-window
session manager) and proofs about its observable behaviour.

External collaborators (THttpServer engine creation, gRandom, gEnv, gSystem,
posix_spawn) are modelled as oracle functions passed explicitly; machine `int`
values are `Int`, strings are Lean `String`s manipulated through `List Char`
helpers so that every definition evaluates inside the kernel.
-/

namespace WebGui

/-! ### String helpers (kernel-computable counterparts of std::string / TString ops) -/

/-- Model of `s.find(c) != npos` for a single character, i.e. membership of `c` in `s`. -/
def strContains (s : String) (c : Char) : Bool := s.data.contains c

/-- Model of `s.find(pre) == 0`: does `s` start with `pre`? -/
def strStarts (s pre : String) : Bool := pre.data.isPrefixOf s.data

/-- Model of `s.substr(n)` / `TString::Remove(0,n)`: drop the first `n` characters. -/
def strDrop (s : String) (n : Nat) : String := ⟨s.data.drop n⟩

/-- One pass of `TString::ReplaceAll` over a character list; `fuel` bounds the
recursion (structurally) and is instantiated with the list length, which always
suffices because each step consumes at least one character. -/
def replaceLoop (pat rep : List Char) : Nat → List Char → List Char
  | 0, l => l
  | _ + 1, [] => []
  | fuel + 1, c :: rest =>
    if pat ≠ [] ∧ pat.isPrefixOf (c :: rest) then
      rep ++ replaceLoop pat rep fuel ((c :: rest).drop pat.length)
    else
      c :: replaceLoop pat rep fuel rest

/-- Model of `TString::ReplaceAll(pat, rep)` on `s`. -/
def replaceAll (s pat rep : String) : String :=
  ⟨replaceLoop pat.data rep.data s.data.length s.data⟩

/-- Model of `TString::Tokenize(" ")`: split on spaces, dropping empty tokens.
`cur` accumulates the current token in reverse. -/
def tokenizeLoop : List Char → List Char → List (List Char)
  | [], cur => if cur = [] then [] else [cur.reverse]
  | c :: rest, cur =>
    if c = ' ' then (if cur = [] then tokenizeLoop rest [] else cur.reverse :: tokenizeLoop rest [])
    else tokenizeLoop rest (c :: cur)

def tokenizeSpaces (s : String) : List (List Char) := tokenizeLoop s.data []

/-! ### Configuration and manager state -/

/-- The `WebGui.*` configuration values read from `gEnv` by `CreateHttpServer`
(`HttpPort`, `HttpPortMin`, `HttpPortMax`, `HttpLoopback`, `HttpBind`,
`UseHttps`, `ServerCert`); booleans already reflect the `strstr(..., "yes")`
tests performed on the raw strings. -/
structure HttpCfg where
  httpPort : Int
  httpMin : Int
  httpMax : Int
  loopback : Bool
  bind : String
  secure : Bool
  sslCert : String
deriving DecidableEq

/-- The manager's mutable fields used by the embedded code: `fServer`
(existence of the `THttpServer` object), `fAddr` (cached bound address, empty
while unbound) and `fIdCnt` (the window id counter). -/
structure MgrState where
  hasServer : Bool
  addr : String
  idCnt : Nat
deriving DecidableEq

/-- Outcome of `CreateHttpServer`: the returned `bool`, the updated manager
state, and how many `THttpServer::CreateEngine` (bind) attempts were made. -/
structure HttpResult where
  ok : Bool
  st : MgrState
  attempts : Nat
deriving DecidableEq

/-- Host part of the URL built per bind attempt: scheme from `UseHttps`, then
`localhost`, or the `HttpBind` override when set and not loopback. -/
def serverUrlHost (cfg : HttpCfg) : String :=
  (if cfg.secure then "https://" else "http://") ++
    (if cfg.loopback then "localhost" else if cfg.bind ≠ "" then cfg.bind else "localhost")

/-- The `while (ntry-- >= 0)` bind loop of `CreateHttpServer`.  The C++ loop
body runs `ntry₀ + 1` times when `ntry₀ ≥ 0` and never when `ntry₀ < 0`, so it
is driven here by `fuel = (ntry₀ + 1).toNat` structurally.  `port` is the
current `http_port` value (0 = draw a random one), `engineOk` tells whether
`fServer->CreateEngine` succeeds for a given port, `rand ri` is the `ri`-th
`gRandom` draw. -/
def serverBindLoop (cfg : HttpCfg) (engineOk : Int → Bool) (rand : Nat → Nat)
    (st : MgrState) : Nat → Int → Nat → Nat → HttpResult
  | 0, _, _, att => ⟨false, st, att⟩
  | fuel + 1, port, ri, att =>
    if port = 0 then
      if cfg.httpMin ≤ 0 ∨ cfg.httpMax ≤ cfg.httpMin then ⟨false, st, att⟩
      else
        let p : Int := cfg.httpMin + (rand ri : Int) % (cfg.httpMax - cfg.httpMin)
        if engineOk p then
          ⟨true, { st with addr := serverUrlHost cfg ++ ":" ++ toString p }, att + 1⟩
        else serverBindLoop cfg engineOk rand st fuel 0 (ri + 1) (att + 1)
    else
      if engineOk port then
        ⟨true, { st with addr := serverUrlHost cfg ++ ":" ++ toString port }, att + 1⟩
      else serverBindLoop cfg engineOk rand st fuel 0 ri (att + 1)

/-- Embedding of `TWebWindowsManager::CreateHttpServer(with_http)`: constructs the server
object if absent; returns early when no real HTTP engine is required or an
address is already bound; rejects a negative configured port; otherwise runs
the bind loop with `ntry = min(100, httpMax - httpMin)`. -/
def CreateHttpServer (cfg : HttpCfg) (engineOk : Int → Bool) (rand : Nat → Nat)
    (st0 : MgrState) (withHttp : Bool) : HttpResult :=
  let st := { st0 with hasServer := true }
  if ¬ withHttp ∨ st.addr ≠ "" then ⟨true, st, 0⟩
  else if cfg.httpPort < 0 then ⟨false, st, 0⟩
  else
    let ntry : Int := if cfg.httpMax - cfg.httpMin < 100 then cfg.httpMax - cfg.httpMin else 100
    serverBindLoop cfg engineOk rand st (ntry + 1).toNat cfg.httpPort 0 0

/-! ### URLs -/

/-- The local part of the URL built by `GetUrl`:
`"/web7gui/" + handler-name + ("/?batch_mode" | "/")`. -/
def GetUrlLocal (name : String) (batch : Bool) : String :=
  "/web7gui/" ++ name ++ (if batch then "/?batch_mode" else "/")

/-- Embedding of `TWebWindowsManager::GetUrl(win, remote)`: empty string when the server
object does not exist, or when `remote` is requested but the real HTTP server
cannot be started; otherwise the (possibly address-prefixed) window URL.
Returns the updated manager state alongside. -/
def GetUrl (cfg : HttpCfg) (engineOk : Int → Bool) (rand : Nat → Nat)
    (st : MgrState) (name : String) (batch remote : Bool) : String × MgrState :=
  if ¬ st.hasServer then ("", st)
  else
    let addr := GetUrlLocal name batch
    if remote then
      let r := CreateHttpServer cfg engineOk rand st true
      if ¬ r.ok then ("", r.st) else (r.st.addr ++ addr, r.st)
    else (addr, st)

/-- The key suffix appended by `Show`:
`addr += (addr.find("?") != npos ? "&key=" : "?key=") + key`. -/
def AppendKeyToUrl (addr key : String) : String :=
  (if strContains addr '?' then addr ++ "&key=" else addr ++ "?key=") ++ key

/-! ### Windows and session keys -/

/-- Modelled from the spec: the `TWebWindow` fields consumed by the manager
(`TWebWindow.cxx` is not part of the sources under study; §3 of the design
document describes the window as batch flag, dimensions, endpoint name and
`issuedKeys: mapping<key, launchTag>`).  `keys` lists the issued
key-to-launch-tag pairs, most recent first. -/
structure WinState where
  name : String
  batch : Bool
  width : Nat
  height : Nat
  keys : List (String × String)
deriving DecidableEq

/-- Modelled from the spec: `TWebWindow::HasKey` — membership of `k` among the
currently stored session keys of the window. -/
def WinState.hasKey (w : WinState) (k : String) : Bool :=
  w.keys.any (fun p => p.1 = k)

/-- Modelled from the spec: `TWebWindow::AddKey` — record the key with its
launch tag. -/
def WinState.addKey (w : WinState) (k tag : String) : WinState :=
  { w with keys := (k, tag) :: w.keys }

/-- The key-generation loop of `Show`:
`do { key = to_string(gRandom->Integer(0x100000)); } while ((--ntry > 0) && win.HasKey(key));`
One C++ iteration with counter value `n + 1` generates a key, decrements the
counter to `n`, and keeps looping only while `n > 0` and the key collides.
Returns the last generated key together with the final counter value. -/
def keyLoop (w : WinState) (rand : Nat → Nat) : Nat → Nat → String × Nat
  | i, 0 => (toString (rand i % 0x100000), 0)
  | i, n + 1 =>
    let key := toString (rand i % 0x100000)
    if 0 < n ∧ w.hasKey key then keyLoop w rand (i + 1) n
    else (key, n)

/-- Environment surrounding `Show`: compile-time flags, `gSystem` queries,
`gROOT`/`gEnv` values and the outcome of `posix_spawn`.  Each field is the
value the corresponding C++ call would return. -/
structure ShowEnv where
  /-- compiled with `R__HAS_CEFWEB` -/
  hasCefBuild : Bool
  /-- compiled with `R__HAS_QT5WEB` -/
  hasQt5Build : Bool
  /-- whether `CEF_PATH` is set and `gSystem->AccessPathName` says it exists -/
  cefPathOk : Bool
  /-- whether `ROOTSYS` is set -/
  rootsysSet : Bool
  /-- whether `DISPLAY` is set and non-empty -/
  displaySet : Bool
  /-- whether `webgui_start_browser_in_cef3` is resolvable (possibly after loading the library) -/
  symbolCef : Bool
  /-- whether `webgui_start_browser_in_qt5` is resolvable -/
  symbolQt5 : Bool
  /-- value of `gROOT->GetWebDisplay()` -/
  webDisplay : String
  /-- value of `WebGui.Chrome` -/
  chromeProg : String
  /-- value of `WebGui.Firefox` -/
  firefoxProg : String
  /-- value of `WebGui.ChromeBatch` (with its default template) -/
  chromeBatch : String
  /-- value of `WebGui.ChromeInteractive` -/
  chromeInteractive : String
  /-- value of `WebGui.FirefoxBatch` -/
  firefoxBatch : String
  /-- value of `WebGui.FirefoxInteractive` -/
  firefoxInteractive : String
  /-- whether built for macOS: `R__MACOSX` / `gSystem->InheritsFrom("TMacOSXSystem")` -/
  isMac : Bool
  /-- whether `gSystem->InheritsFrom("TWinNTSystem")` holds -/
  isWin : Bool
  /-- compiled for Linux (`R__LINUX`) -/
  isLinux : Bool
  /-- compiled with `_MSC_VER` -/
  isMSVC : Bool
  /-- oracle for `!gSystem->AccessPathName(p)`: does path `p` exist? -/
  pathExists : String → Bool
  /-- whether `posix_spawn` returned status 0 -/
  spawnOk : Bool
  /-- the pid written by `posix_spawn` -/
  spawnPid : Int

/-- Candidate browser binaries probed when no explicit program is configured;
the lists mirror the `R__MACOSX` / `R__LINUX` blocks. -/
def testProgs (env : ShowEnv) (chrome : Bool) : List String :=
  if chrome then
    (if env.isMac then ["/Applications/Googl Chrome.app/Contents/MacOS/Google Chrome"] else []) ++
      (if env.isLinux then ["/usr/bin/chromium", "/usr/bin/chromium-browser", "/usr/bin/chrome-browser"] else [])
  else
    (if env.isMac then ["/Applications/Firefox.app/Contents/MacOS/firefox"] else []) ++
      (if env.isLinux then ["/usr/bin/firefox"] else [])

/-- Result of `Show`: the returned `bool` plus the updated manager and window
states. -/
structure ShowResult where
  ok : Bool
  mst : MgrState
  win : WinState
deriving DecidableEq

/-- Program and command-template resolution of `Show` (`TString prog`,
`TString exec` and the placeholder substitutions): returns the resolved
program path and the template after `$url`/`$width`/`$height` substitution.
`addr2` is the already address-prefixed URL and the five flags the `is_*`
booleans computed earlier. -/
def resolveLaunch (env : ShowEnv) (win : WinState) (whereStr : String)
    (isNative isCef isQt5 isChrome isFirefox : Bool) (addr2 : String) : String × String :=
  let swidth := toString (if win.width ≠ 0 then win.width else 800)
  let sheight := toString (if win.height ≠ 0 then win.height else 600)
  let resolved : String × List String × String :=
    if isChrome then
      (env.chromeProg, testProgs env true,
        if win.batch then env.chromeBatch else env.chromeInteractive)
    else if isFirefox then
      (env.firefoxProg, testProgs env false,
        if win.batch then env.firefoxBatch else env.firefoxInteractive)
    else if ¬ isNative ∧ ¬ isCef ∧ ¬ isQt5 ∧ whereStr ≠ "browser" then
      (whereStr, [], if strContains whereStr '$' then whereStr else "$prog $url &")
    else if env.isMac then (whereStr, [], "open \x27$url\x27")
    else if env.isWin then (whereStr, [], "start $url")
    else (whereStr, [], "xdg-open \x27$url\x27 &")
  let prog :=
    if resolved.1 = "" then
      match resolved.2.1.find? env.pathExists with
      | some p => p
      | none => whereStr
    else resolved.1
  (prog,
    replaceAll (replaceAll (replaceAll resolved.2.2 "$url" addr2) "$width" swidth)
      "$height" sheight)

/-- The external-launch tail of `Show` (everything after the real HTTP server
has been ensured): the `fork:` direct-spawn path and the fire-and-forget shell
path. -/
def ShowLaunch (env : ShowEnv) (mst : MgrState) (win : WinState) (key whereStr : String)
    (isNative isCef isQt5 isChrome isFirefox : Bool) (addr2 : String) : ShowResult :=
  let pe := resolveLaunch env win whereStr isNative isCef isQt5 isChrome isFirefox addr2
  if strStarts pe.2 "fork:" then
    if env.isMSVC then ⟨false, mst, win⟩
    else
      let args := tokenizeSpaces (strDrop pe.2 5)
      if args.length ≤ 1 then ⟨false, mst, win⟩
      else if ¬ env.spawnOk then ⟨false, mst, win⟩
      else ⟨true, mst, win.addKey key ("pid:" ++ toString env.spawnPid)⟩
  else
    let progEsc := if env.isMac then replaceAll pe.1 " " "\\ " else pe.1
    let _exec2 := replaceAll pe.2 "$prog" progEsc
    ⟨true, mst, win.addKey key whereStr⟩

/-- Resolution of the `where` argument: an empty request falls back to the
`gROOT->GetWebDisplay()` configuration value. -/
def resolveWhere (whereArg webDisplay : String) : String :=
  if whereArg = "" then webDisplay else whereArg

/-- Embedding of `TWebWindowsManager::Show(win, where)`: server presence check, unique key
generation, local URL with key, `where` resolution, batch-mode validation, the
embedded CEF/Qt5 paths, then the external-launch tail after ensuring the real
HTTP server.  `rand` feeds the key draws, `prand` the port draws. -/
def Show (cfg : HttpCfg) (env : ShowEnv) (engineOk : Int → Bool) (rand prand : Nat → Nat)
    (mst : MgrState) (win : WinState) (whereArg : String) : ShowResult :=
  if ¬ mst.hasServer then ⟨false, mst, win⟩
  else
    let kr := keyLoop win rand 0 1000
    if kr.2 = 0 then ⟨false, mst, win⟩
    else
      let addr := AppendKeyToUrl (GetUrl cfg engineOk prand mst win.name win.batch false).1 kr.1
      let whereStr := resolveWhere whereArg env.webDisplay
      let isNative : Bool := whereStr = "" ∨ whereStr = "native"
      let isQt5 : Bool := whereStr = "qt5"
      let isCef : Bool := whereStr = "cef" ∨ (env.hasCefBuild ∧ isNative = true)
      let isChrome : Bool := whereStr = "chrome" ∨ whereStr = "chromium"
      let isFirefox : Bool := whereStr = "firefox"
      if win.batch && !isCef && !isChrome && !isFirefox then ⟨false, mst, win⟩
      else if win.batch && isCef && !env.displaySet then ⟨false, mst, win⟩
      else if env.hasCefBuild && env.cefPathOk && env.rootsysSet && (isNative || isCef) && env.symbolCef then
        ⟨true, mst, win.addKey kr.1 "cef"⟩
      else if env.hasQt5Build && (isNative || isQt5) && env.symbolQt5 then
        ⟨true, mst, win.addKey kr.1 "qt5"⟩
      else
        let hr := CreateHttpServer cfg engineOk prand mst true
        if ¬ hr.ok then ⟨false, hr.st, win⟩
        else
          ShowLaunch env hr.st win kr.1 whereStr
            isNative isCef isQt5 isChrome isFirefox
            (hr.st.addr ++ addr)

/-! ### HaltClient -/

/-- Characters treated as whitespace by `strtol` (hence by `std::stoi`). -/
def isSpaceChar (c : Char) : Bool :=
  c = ' ' || c = '\t' || c = '\n' || c = '\x0b' || c = '\x0c' || c = '\r'

/-- The value of the C++ `int` type bounds used by `std::stoi`. -/
def intMaxC : Int := 2147483647

def intMinC : Int := -2147483648

/-- Model of `std::stoi(s)`: skip leading whitespace, read an optional sign and a
non-empty run of decimal digits.  `none` models the exceptional outcomes
(`std::invalid_argument` when no digits are found, `std::out_of_range` when
the value does not fit in `int`). -/
def stoi (s : String) : Option Int :=
  let l1 := s.data.dropWhile isSpaceChar
  let signed : Int × List Char :=
    match l1 with
    | '+' :: r => (1, r)
    | '-' :: r => (-1, r)
    | r => (1, r)
  let ds := signed.2.takeWhile Char.isDigit
  if ds = [] then none
  else
    let v : Int := signed.1 * ((ds.foldl (fun a c => a * 10 + (c.toNat - 48)) 0 : Nat) : Int)
    if v < intMinC ∨ intMaxC < v then none else some v

/-- Observable outcome of `HaltClient`. -/
inductive HaltOutcome where
  /-- tag does not start with `"pid:"`: early return, nothing happens -/
  | ignored : HaltOutcome
  /-- tag parsed but `pid ≤ 0`: no signal sent -/
  | noSignal (pid : Int) : HaltOutcome
  /-- outcome where `kill(pid, SIGKILL)` was issued (non-Windows build) -/
  | killed (pid : Int) : HaltOutcome
deriving DecidableEq

/-- Embedding of `TWebWindowsManager::HaltClient(procid)`:
returns immediately unless `procid.find("pid:") == 0`; otherwise calls
`std::stoi(procid.substr(4))` — which may throw, modelled by `Except.error` —
and issues `kill(pid, SIGKILL)` only for a positive pid. -/
def HaltClient (procid : String) : Except Unit HaltOutcome :=
  if ¬ strStarts procid "pid:" then .ok .ignored
  else
    match stoi (strDrop procid 4) with
    | none => .error ()
    | some pid => .ok (if 0 < pid then .killed pid else .noSignal pid)

/-! ### WaitFor -/

/-- The `spent` value seen by the `k`-th predicate invocation: `0` on entry, then
the stopwatch reading taken after each sleep (`elapsed j` is the reading after
the `j`-th loop body). -/
def spentAt (elapsed : Nat → ℚ) : Nat → ℚ
  | 0 => 0
  | k + 1 => elapsed k

/-- The `while ((res = check(spent)) == 0)` loop of `WaitFor`, with the event
pump and sleep abstracted away and the stopwatch readings supplied by
`elapsed`.  `fuel` bounds the number of predicate invocations (the C++ loop
may run forever); `none` means the loop was still running after `fuel`
invocations. -/
def waitForLoop (check : ℚ → Int) (elapsed : Nat → ℚ) (timelimit : ℚ) :
    Nat → Nat → Option Int
  | 0, _ => none
  | fuel + 1, cnt =>
    let res := check (spentAt elapsed cnt)
    if res ≠ 0 then some res
    else
      let spent := elapsed cnt
      if 0 < timelimit ∧ timelimit < spent then some 0
      else waitForLoop check elapsed timelimit fuel (cnt + 1)

/-- Embedding of `TWebWindowsManager::WaitFor(check, timelimit)`: a negative `timelimit` is
replaced by the configured `WebGui.WaitForTmout` default (`dflt`), then the
polling loop runs. -/
def WaitFor (check : ℚ → Int) (elapsed : Nat → ℚ) (timelimit dflt : ℚ) (fuel : Nat) :
    Option Int :=
  waitForLoop check elapsed (if timelimit < 0 then dflt else timelimit) fuel 0

/-! ### CreateWindow / Unregister -/

/-- Embedding of `TWebWindowsManager::CreateWindow(batch_mode)` restricted to the manager
state: calls `CreateHttpServer()` (no HTTP engine needed, so it always
succeeds) and assigns the next id via `++fIdCnt`.  Returns the id given to the
new window. -/
def CreateWindow (cfg : HttpCfg) (engineOk : Int → Bool) (rand : Nat → Nat)
    (st : MgrState) : Option Nat × MgrState :=
  let r := CreateHttpServer cfg engineOk rand st false
  if ¬ r.ok then (none, r.st)
  else (some (r.st.idCnt + 1), { r.st with idCnt := r.st.idCnt + 1 })

/-- Embedding of `TWebWindowsManager::Unregister(win)`: unregisters the window's WebSocket
handler from the server; no manager field modelled here is modified (in
particular `fIdCnt` is untouched). -/
def Unregister (st : MgrState) : MgrState := st

/-- A client-visible manager operation: window creation or destruction
(destruction of window `i` reaches the manager through `Unregister`). -/
inductive MgrOp where
  | create : MgrOp
  | destroy (id : Nat) : MgrOp
deriving DecidableEq

/-- Run a sequence of operations, accumulating the ids issued by the `create`
steps in order. -/
def runOps (cfg : HttpCfg) (engineOk : Int → Bool) (rand : Nat → Nat) :
    MgrState → List Nat → List MgrOp → MgrState × List Nat
  | st, issued, [] => (st, issued)
  | st, issued, MgrOp.create :: rest =>
    let r := CreateWindow cfg engineOk rand st
    match r.1 with
    | some id => runOps cfg engineOk rand r.2 (issued ++ [id]) rest
    | none => runOps cfg engineOk rand r.2 issued rest
  | st, issued, MgrOp.destroy _ :: rest =>
    runOps cfg engineOk rand (Unregister st) issued rest

/-- The URL shape claimed by the specification: base endpoint path, window
endpoint, trailing slash, `"?batch_mode"` iff batch mode, then the key joined
with `&` when a `?` is already present and with `?` otherwise. -/
def specShowUrl (name : String) (batch : Bool) (key : String) : String :=
  let url := "/web7gui/" ++ name ++ "/" ++ (if batch then "?batch_mode" else "")
  url ++ (if strContains url '?' then "&key=" else "?key=") ++ key

/-! ### General lemmas about the embedding -/

lemma str_ne_empty_iff (a : String) : a ≠ "" ↔ a.data ≠ [] := by
  constructor
  · intro h hc
    exact h (String.ext hc)
  · intro h hc
    subst hc
    exact h rfl

lemma append_ne_empty_left (a b : String) (h : a ≠ "") : a ++ b ≠ "" := by
  rw [str_ne_empty_iff] at h ⊢
  rw [String.data_append]
  simp [List.append_eq_nil, h]

lemma append_ne_empty_right (a b : String) (h : b ≠ "") : a ++ b ≠ "" := by
  rw [str_ne_empty_iff] at h ⊢
  rw [String.data_append]
  simp [List.append_eq_nil, h]

lemma serverUrlHost_ne_empty (cfg : HttpCfg) : serverUrlHost cfg ≠ "" := by
  unfold serverUrlHost
  split <;> apply append_ne_empty_left <;> decide

lemma getUrlLocal_ne_empty (name : String) (batch : Bool) : GetUrlLocal name batch ≠ "" := by
  unfold GetUrlLocal
  apply append_ne_empty_left
  apply append_ne_empty_left
  decide

lemma serverBindLoop_state (cfg : HttpCfg) (engineOk : Int → Bool) (rand : Nat → Nat)
    (st : MgrState) :
    ∀ fuel port ri att, (serverBindLoop cfg engineOk rand st fuel port ri att).ok = false ∨
      ((serverBindLoop cfg engineOk rand st fuel port ri att).ok = true ∧
        (serverBindLoop cfg engineOk rand st fuel port ri att).st.addr ≠ "" ∧
        (serverBindLoop cfg engineOk rand st fuel port ri att).st.hasServer = st.hasServer) := by
  intro fuel
  induction fuel with
  | zero => intro port ri att; left; rfl
  | succ n ih =>
    intro port ri att
    rw [serverBindLoop]
    dsimp only
    split
    · split
      · left; rfl
      · split
        · right
          exact ⟨rfl,
            append_ne_empty_left _ _ (append_ne_empty_left _ _ (serverUrlHost_ne_empty cfg)), rfl⟩
        · exact ih 0 (ri + 1) (att + 1)
    · split
      · right
        exact ⟨rfl,
          append_ne_empty_left _ _ (append_ne_empty_left _ _ (serverUrlHost_ne_empty cfg)), rfl⟩
      · exact ih 0 ri (att + 1)

lemma serverBindLoop_ok_state (cfg : HttpCfg) (engineOk : Int → Bool) (rand : Nat → Nat)
    (st : MgrState) :
    ∀ fuel port ri att, (serverBindLoop cfg engineOk rand st fuel port ri att).ok = true →
      (serverBindLoop cfg engineOk rand st fuel port ri att).st.addr ≠ "" ∧
      (serverBindLoop cfg engineOk rand st fuel port ri att).st.hasServer = st.hasServer := by
  intro fuel port ri att h
  rcases serverBindLoop_state cfg engineOk rand st fuel port ri att with hf | ⟨_, h1, h2⟩
  · rw [h] at hf
    exact absurd hf (by simp)
  · exact ⟨h1, h2⟩

lemma createHttpServer_ok_state (cfg : HttpCfg) (engineOk : Int → Bool) (rand : Nat → Nat)
    (st : MgrState) (h : (CreateHttpServer cfg engineOk rand st true).ok = true) :
    (CreateHttpServer cfg engineOk rand st true).st.addr ≠ "" ∧
    (CreateHttpServer cfg engineOk rand st true).st.hasServer = true := by
  unfold CreateHttpServer at h ⊢
  dsimp only at h ⊢
  split
  · rename_i hc
    rcases hc with hc | hc
    · exact absurd rfl hc
    · exact ⟨hc, rfl⟩
  · split
    · rename_i h1 h2
      rw [if_neg h1, if_pos h2] at h
      exact absurd h (by simp)
    · rename_i h1 h2
      rw [if_neg h1, if_neg h2] at h
      exact serverBindLoop_ok_state cfg engineOk rand _ _ _ _ _ h

lemma createHttpServer_cached (cfg : HttpCfg) (engineOk : Int → Bool) (rand : Nat → Nat)
    (st : MgrState) (ha : st.addr ≠ "") (hs : st.hasServer = true) :
    CreateHttpServer cfg engineOk rand st true = ⟨true, st, 0⟩ := by
  have hst : { st with hasServer := true } = st := by
    cases st; simp_all
  unfold CreateHttpServer
  rw [hst, if_pos (Or.inr ha)]

lemma serverBindLoop_all_fail (cfg : HttpCfg) (engineOk : Int → Bool) (rand : Nat → Nat)
    (st : MgrState) (h1 : 0 < cfg.httpMin) (h2 : cfg.httpMin < cfg.httpMax)
    (hf : ∀ p, engineOk p = false) :
    ∀ fuel ri att, serverBindLoop cfg engineOk rand st fuel 0 ri att = ⟨false, st, att + fuel⟩ := by
  intro fuel
  induction fuel with
  | zero => intro ri att; simp [serverBindLoop]
  | succ n ih =>
    intro ri att
    have hr : ¬(cfg.httpMin ≤ 0 ∨ cfg.httpMax ≤ cfg.httpMin) := by omega
    rw [serverBindLoop]
    dsimp only
    rw [if_pos rfl, if_neg hr, if_neg (by simp [hf]), ih]
    have : att + 1 + n = att + (n + 1) := by omega
    rw [this]

/-! ### Claim theorems -/

/-- C8 — EnsureServer is idempotent once bound: after a successful
`CreateHttpServer(true)`, a second call (under any configuration and oracles)
returns success with the identical state — same cached address — and performs
zero bind attempts. -/
theorem ensureServer_idempotent (cfg cfg' : HttpCfg) (engineOk engineOk' : Int → Bool)
    (rand rand' : Nat → Nat) (st : MgrState)
    (h : (CreateHttpServer cfg engineOk rand st true).ok = true) :
    CreateHttpServer cfg' engineOk' rand' (CreateHttpServer cfg engineOk rand st true).st true =
      ⟨true, (CreateHttpServer cfg engineOk rand st true).st, 0⟩ := by
  obtain ⟨ha, hs⟩ := createHttpServer_ok_state cfg engineOk rand st h
  exact createHttpServer_cached cfg' engineOk' rand' _ ha hs

/-- C8 witness: a concrete successful first bind followed by the trivially
succeeding second call. -/
theorem ensureServer_idempotent_witness :
    CreateHttpServer ⟨0, 8800, 9800, false, "", false, "pem"⟩ (fun _ => true) (fun _ => 0)
        (CreateHttpServer ⟨0, 8800, 9800, false, "", false, "pem"⟩ (fun _ => true) (fun _ => 0)
          ⟨false, "", 0⟩ true).st true =
      ⟨true, (CreateHttpServer ⟨0, 8800, 9800, false, "", false, "pem"⟩ (fun _ => true)
        (fun _ => 0) ⟨false, "", 0⟩ true).st, 0⟩ :=
  ensureServer_idempotent _ _ _ _ _ _ ⟨false, "", 0⟩ (by decide)

/-- C3 (amended) — with no cached address, no fixed port and a valid range, if
every bind attempt fails then `CreateHttpServer(true)` fails, leaves the
server unbound, and makes exactly `min(maxPort - minPort, 100) + 1` bind
attempts (one more than the claimed `min(100, maxPort - minPort)`: the C++
loop condition `ntry-- >= 0` runs the body `ntry + 1` times). -/
theorem ensureServer_retry_bound (cfg : HttpCfg) (engineOk : Int → Bool) (rand : Nat → Nat)
    (st : MgrState) (haddr : st.addr = "") (hp : cfg.httpPort = 0)
    (h1 : 0 < cfg.httpMin) (h2 : cfg.httpMin < cfg.httpMax)
    (hf : ∀ p, engineOk p = false) :
    (CreateHttpServer cfg engineOk rand st true).ok = false ∧
    (CreateHttpServer cfg engineOk rand st true).st.addr = "" ∧
    (CreateHttpServer cfg engineOk rand st true).attempts =
      (min (cfg.httpMax - cfg.httpMin) 100).toNat + 1 := by
  unfold CreateHttpServer
  rw [if_neg (by simp [haddr]), if_neg (by omega), hp,
    serverBindLoop_all_fail cfg engineOk rand _ h1 h2 hf]
  refine ⟨rfl, haddr, ?_⟩
  simp only [min_def]
  split <;> split <;> omega

/-- C3 witness: a two-port range with every port occupied. -/
theorem ensureServer_retry_bound_witness :
    (CreateHttpServer ⟨0, 8800, 8802, false, "", false, "pem"⟩ (fun _ => false) (fun _ => 0)
      ⟨false, "", 0⟩ true).attempts = ((8802 - 8800 : Int) ⊓ 100).toNat + 1 :=
  (ensureServer_retry_bound ⟨0, 8800, 8802, false, "", false, "pem"⟩ (fun _ => false)
    (fun _ => 0) ⟨false, "", 0⟩ rfl rfl (by decide) (by decide) (fun _ => rfl)).2.2

/-- C3 counterexample: with range `[8800, 8801)` (so `min(100, maxPort-minPort)
= 1`) and every bind failing, the code makes 2 bind attempts, not at most 1. -/
theorem ensureServer_attempts_cx :
    (CreateHttpServer ⟨0, 8800, 8801, false, "", false, "pem"⟩ (fun _ => false) (fun _ => 0)
      ⟨false, "", 0⟩ true).attempts = 2 ∧
    ((8801 - 8800 : Int) ⊓ 100).toNat = 1 := by
  constructor <;> decide

/-- C6 (amended) — a negative configured fixed port is rejected before any
bind attempt; and when *no fixed port is configured*, an invalid range
(`minPort ≤ 0` or `maxPort ≤ minPort`) is also rejected before any bind
attempt.  (As stated the claim is false: with a positive fixed port the range
check is skipped and a bind attempt occurs.) -/
theorem ensureServer_config_errors (cfg : HttpCfg) (engineOk : Int → Bool) (rand : Nat → Nat)
    (st : MgrState) (haddr : st.addr = "") :
    (cfg.httpPort < 0 →
      CreateHttpServer cfg engineOk rand st true = ⟨false, { st with hasServer := true }, 0⟩) ∧
    (cfg.httpPort = 0 → (cfg.httpMin ≤ 0 ∨ cfg.httpMax ≤ cfg.httpMin) →
      CreateHttpServer cfg engineOk rand st true = ⟨false, { st with hasServer := true }, 0⟩) := by
  constructor
  · intro hneg
    unfold CreateHttpServer
    rw [if_neg (by simp [haddr]), if_pos hneg]
  · intro hzero hrange
    unfold CreateHttpServer
    rw [if_neg (by simp [haddr]), if_neg (by omega), hzero]
    dsimp only
    rcases hc : (((if cfg.httpMax - cfg.httpMin < 100 then cfg.httpMax - cfg.httpMin else 100) : Int)
        + 1).toNat with _ | n
    · rw [serverBindLoop]
    · rw [serverBindLoop]
      dsimp only
      rw [if_pos rfl, if_pos hrange]

/-- C6 witness: negative fixed port and invalid-range-without-fixed-port both
fail with zero bind attempts. -/
theorem ensureServer_config_errors_witness :
    CreateHttpServer ⟨-1, 8800, 9800, false, "", false, "pem"⟩ (fun _ => true) (fun _ => 0)
        ⟨false, "", 0⟩ true = ⟨false, ⟨true, "", 0⟩, 0⟩ ∧
    CreateHttpServer ⟨0, 0, 9800, false, "", false, "pem"⟩ (fun _ => true) (fun _ => 0)
        ⟨false, "", 0⟩ true = ⟨false, ⟨true, "", 0⟩, 0⟩ :=
  ⟨(ensureServer_config_errors _ _ _ _ rfl).1 (by decide),
   (ensureServer_config_errors _ _ _ _ rfl).2 rfl (Or.inl (by decide))⟩

/-- C6 counterexample: fixed port `5` with `minPort = 0 ≤ 0` — the claim says
this must fail immediately with a configuration error before any bind attempt,
but the code performs a bind attempt and even succeeds. -/
theorem ensureServer_config_cx :
    (CreateHttpServer ⟨5, 0, 9800, false, "", false, "pem"⟩ (fun _ => true) (fun _ => 0)
      ⟨false, "", 0⟩ true).ok = true ∧
    (CreateHttpServer ⟨5, 0, 9800, false, "", false, "pem"⟩ (fun _ => true) (fun _ => 0)
      ⟨false, "", 0⟩ true).attempts = 1 := by
  constructor <;> decide

/-- C10 — `GetUrl` returns the empty string exactly when the server object is
missing, or a remote URL is requested and the real HTTP server cannot be
bound; in every other case the returned URL is non-empty. -/
theorem getUrl_empty_iff (cfg : HttpCfg) (engineOk : Int → Bool) (rand : Nat → Nat)
    (st : MgrState) (name : String) (batch remote : Bool) :
    ((GetUrl cfg engineOk rand st name batch remote).1 = "" ↔
      (st.hasServer = false ∨
        (remote = true ∧ (CreateHttpServer cfg engineOk rand st true).ok = false))) := by
  unfold GetUrl
  cases hsv : st.hasServer with
  | false => simp [hsv]
  | true =>
    cases hrm : remote with
    | false => simp [hsv, hrm, getUrlLocal_ne_empty name batch]
    | true =>
      cases hok : (CreateHttpServer cfg engineOk rand st true).ok with
      | false => simp [hsv, hrm, hok]
      | true =>
        simp [hsv, hrm, hok, append_ne_empty_right _ _ (getUrlLocal_ne_empty name batch)]

/-- C7 — the local URL handed to the launcher by `Show` has exactly the
claimed shape: base endpoint, window endpoint, trailing slash, `?batch_mode`
iff batch mode, and the key joined with `&` iff a `?` is already present. -/
theorem show_local_url_shape (cfg : HttpCfg) (engineOk : Int → Bool) (rand : Nat → Nat)
    (st : MgrState) (name key : String) (batch : Bool) (h : st.hasServer = true) :
    AppendKeyToUrl (GetUrl cfg engineOk rand st name batch false).1 key =
      specShowUrl name batch key := by
  have hloc : (GetUrl cfg engineOk rand st name batch false).1 = GetUrlLocal name batch := by
    unfold GetUrl
    rw [if_neg (by simp [h])]
    rfl
  have hurl : GetUrlLocal name batch =
      "/web7gui/" ++ name ++ "/" ++ (if batch then "?batch_mode" else "") := by
    unfold GetUrlLocal
    cases batch
    · rw [if_neg (by simp), if_neg (by simp), String.append_empty]
    · rw [if_pos rfl, if_pos rfl]
      have hb : ("/?batch_mode" : String) = "/" ++ "?batch_mode" := by decide
      rw [hb, String.append_assoc ("/web7gui/" ++ name) "/" "?batch_mode"]
  rw [hloc, hurl]
  unfold AppendKeyToUrl specShowUrl
  dsimp only
  split_ifs <;> rw [String.append_assoc]

/-- C7 witness: window endpoint `w12`, batch mode on, key `42`. -/
theorem show_local_url_shape_witness :
    AppendKeyToUrl (GetUrl ⟨0, 8800, 9800, false, "", false, "pem"⟩ (fun _ => true) (fun _ => 0)
        ⟨true, "", 0⟩ "w12" true false).1 "42" = specShowUrl "w12" true "42" :=
  show_local_url_shape _ _ _ ⟨true, "", 0⟩ "w12" "42" true rfl

lemma keyLoop_fresh (w : WinState) (rand : Nat → Nat) :
    ∀ n i, (keyLoop w rand i n).2 ≠ 0 → w.hasKey (keyLoop w rand i n).1 = false := by
  intro n
  induction n with
  | zero => intro i h; simp [keyLoop] at h
  | succ n ih =>
    intro i h
    simp only [keyLoop] at h ⊢
    by_cases hc : 0 < n ∧ w.hasKey (toString (rand i % 0x100000)) = true
    · rw [if_pos hc] at h ⊢
      exact ih (i + 1) h
    · rw [if_neg hc] at h ⊢
      have hn : 0 < n := Nat.pos_of_ne_zero h
      have : ¬ w.hasKey (toString (rand i % 0x100000)) = true := fun hk => hc ⟨hn, hk⟩
      simpa using this

lemma keyLoop_zero_iff (w : WinState) (rand : Nat → Nat) :
    ∀ n i, ((keyLoop w rand i (n + 1)).2 = 0 ↔
      ∀ j, j < n → w.hasKey (toString (rand (i + j) % 0x100000)) = true) := by
  intro n
  induction n with
  | zero =>
    intro i
    simp only [keyLoop]
    rw [if_neg (by simp)]
    simp
  | succ n ih =>
    intro i
    conv_lhs => rw [keyLoop]
    by_cases hk : w.hasKey (toString (rand i % 0x100000)) = true
    · rw [if_pos ⟨Nat.succ_pos n, hk⟩, ih (i + 1)]
      constructor
      · intro hall j hj
        cases j with
        | zero => simpa using hk
        | succ j =>
          have := hall j (by omega)
          rwa [show i + 1 + j = i + (j + 1) from by omega] at this
      · intro hall j hj
        have := hall (j + 1) (by omega)
        rwa [show i + (j + 1) = i + 1 + j from by omega] at this
    · rw [if_neg (fun hc => hk hc.2)]
      constructor
      · intro h0
        exact absurd h0 (by omega)
      · intro hall
        exact absurd (by simpa using hall 0 (by omega)) hk

lemma ShowLaunch_win (env : ShowEnv) (mst : MgrState) (win : WinState) (key whereStr : String)
    (bn bc bq bch bf : Bool) (addr2 : String) :
    ((ShowLaunch env mst win key whereStr bn bc bq bch bf addr2).ok = false →
      ShowLaunch env mst win key whereStr bn bc bq bch bf addr2 = ⟨false, mst, win⟩) ∧
    ((ShowLaunch env mst win key whereStr bn bc bq bch bf addr2).ok = true →
      ∃ tag, ShowLaunch env mst win key whereStr bn bc bq bch bf addr2 =
        ⟨true, mst, win.addKey key tag⟩) := by
  unfold ShowLaunch
  dsimp only
  repeat' split
  all_goals refine ⟨fun h => ?_, fun h => ?_⟩
  all_goals first
    | rfl
    | exact ⟨_, rfl⟩
    | simp at h

lemma Show_state (cfg : HttpCfg) (env : ShowEnv) (engineOk : Int → Bool)
    (rand prand : Nat → Nat) (mst : MgrState) (win : WinState) (whereArg : String) :
    ((Show cfg env engineOk rand prand mst win whereArg).ok = false →
      (Show cfg env engineOk rand prand mst win whereArg).win = win) ∧
    ((Show cfg env engineOk rand prand mst win whereArg).ok = true →
      ∃ tag, (Show cfg env engineOk rand prand mst win whereArg).win =
          win.addKey (keyLoop win rand 0 1000).1 tag ∧
        (keyLoop win rand 0 1000).2 ≠ 0) := by
  unfold Show
  dsimp only
  split
  · exact ⟨fun _ => rfl, fun h => by simp at h⟩
  · split
    · exact ⟨fun _ => rfl, fun h => by simp at h⟩
    · rename_i hkr
      split
      · exact ⟨fun _ => rfl, fun h => by simp at h⟩
      · split
        · exact ⟨fun _ => rfl, fun h => by simp at h⟩
        · split
          · exact ⟨fun h => by simp at h, fun _ => ⟨"cef", rfl, hkr⟩⟩
          · split
            · exact ⟨fun h => by simp at h, fun _ => ⟨"qt5", rfl, hkr⟩⟩
            · split
              · exact ⟨fun _ => rfl, fun h => by simp at h⟩
              · constructor
                · intro h
                  rw [(ShowLaunch_win _ _ _ _ _ _ _ _ _ _ _).1 h]
                · intro h
                  obtain ⟨tag, ht⟩ := (ShowLaunch_win _ _ _ _ _ _ _ _ _ _ _).2 h
                  exact ⟨tag, by rw [ht], hkr⟩

/-- C4 — every error return of `Show` leaves the window's key table unchanged;
a launch record is added exactly on success, and the added key was fresh. -/
theorem show_error_preserves_keys (cfg : HttpCfg) (env : ShowEnv) (engineOk : Int → Bool)
    (rand prand : Nat → Nat) (mst : MgrState) (win : WinState) (whereArg : String) :
    ((Show cfg env engineOk rand prand mst win whereArg).ok = false →
      (Show cfg env engineOk rand prand mst win whereArg).win.keys = win.keys) ∧
    ((Show cfg env engineOk rand prand mst win whereArg).ok = true →
      ∃ k tag, (Show cfg env engineOk rand prand mst win whereArg).win.keys =
          (k, tag) :: win.keys ∧ win.hasKey k = false) := by
  obtain ⟨h1, h2⟩ := Show_state cfg env engineOk rand prand mst win whereArg
  constructor
  · intro h
    rw [h1 h]
  · intro h
    obtain ⟨tag, ht, hkr⟩ := h2 h
    refine ⟨(keyLoop win rand 0 1000).1, tag, ?_, keyLoop_fresh win rand 1000 0 hkr⟩
    rw [ht]
    rfl

/-- C4 witness: a `Show` call failing at the server-presence check leaves the
key table empty. -/
theorem show_error_preserves_keys_witness :
    (Show ⟨0, 8800, 9800, false, "", false, "pem"⟩
        ⟨false, false, false, false, false, false, false, "", "", "", "", "", "", "",
          false, false, false, false, fun _ => false, false, 0⟩
        (fun _ => false) (fun _ => 0) (fun _ => 0) ⟨false, "", 0⟩
        ⟨"w", false, 0, 0, []⟩ "").win.keys = [] :=
  (show_error_preserves_keys _ _ _ _ _ _ _ _).1 (by decide)

/-- C2 (amended) — the recorded key of a successful `Show` was absent from the
window's key table at the start of the call; but the key-generation failure
occurs exactly when the *first 999* generated keys all collide — the 1000th
generated key is never tested (`(--ntry > 0) && win.HasKey(key)` short-circuits
once the counter reaches zero), so "1000 attempts" in the claim is off by one. -/
theorem show_key_uniqueness (cfg : HttpCfg) (env : ShowEnv) (engineOk : Int → Bool)
    (rand prand : Nat → Nat) (mst : MgrState) (win : WinState) (whereArg : String)
    (h : mst.hasServer = true) :
    ((keyLoop win rand 0 1000).2 = 0 ↔
      ∀ j, j < 999 → win.hasKey (toString (rand j % 0x100000)) = true) ∧
    ((keyLoop win rand 0 1000).2 = 0 →
      Show cfg env engineOk rand prand mst win whereArg = ⟨false, mst, win⟩) ∧
    ((Show cfg env engineOk rand prand mst win whereArg).ok = true →
      ∃ tag, (Show cfg env engineOk rand prand mst win whereArg).win =
          win.addKey (keyLoop win rand 0 1000).1 tag ∧
        win.hasKey (keyLoop win rand 0 1000).1 = false) := by
  refine ⟨?_, ?_, ?_⟩
  · have := keyLoop_zero_iff win rand 999 0
    simpa using this
  · intro h0
    unfold Show
    rw [if_neg (by simp [h])]
    dsimp only
    rw [if_pos h0]
  · intro hok
    obtain ⟨tag, ht, hkr⟩ := (Show_state cfg env engineOk rand prand mst win whereArg).2 hok
    exact ⟨tag, ht, keyLoop_fresh win rand 1000 0 hkr⟩

/-- C2 witness: a window whose key table already holds every key the generator
will draw in its first 999 attempts makes `Show` fail without touching the
table. -/
theorem show_key_uniqueness_witness :
    Show ⟨0, 8800, 9800, false, "", false, "pem"⟩
        ⟨false, false, false, false, false, false, false, "", "", "", "", "", "", "",
          false, false, false, false, fun _ => false, false, 0⟩
        (fun _ => false) (fun _ => 5) (fun _ => 0) ⟨true, "", 0⟩
        ⟨"w", false, 0, 0, [("5", "t")]⟩ "browser" =
      ⟨false, ⟨true, "", 0⟩, ⟨"w", false, 0, 0, [("5", "t")]⟩⟩ :=
  (show_key_uniqueness _ _ _ _ _ _ ⟨"w", false, 0, 0, [("5", "t")]⟩ "browser" rfl).2.1
    ((keyLoop_zero_iff ⟨"w", false, 0, 0, [("5", "t")]⟩ (fun _ => 5) 999 0).mpr
      (fun _ _ => by decide))

/-- C2 counterexample: with a stored key `"5"` and random draws that produce
`5` for the first 999 attempts and the fresh value `7` on the 1000th, `Show`
still fails (the key loop exhausts) although the 1000 generation attempts did
produce a key not present in the table. -/
theorem show_keygen_offbyone_cx :
    (keyLoop ⟨"w", false, 0, 0, [("5", "t")]⟩ (fun i => if i < 999 then 5 else 7) 0 1000).2 = 0 ∧
    Show ⟨0, 8800, 9800, false, "", false, "pem"⟩
        ⟨false, false, false, false, false, false, false, "", "", "", "", "", "", "",
          false, false, false, false, fun _ => false, false, 0⟩
        (fun _ => false) (fun i => if i < 999 then 5 else 7) (fun _ => 0) ⟨true, "", 0⟩
        ⟨"w", false, 0, 0, [("5", "t")]⟩ "x" =
      ⟨false, ⟨true, "", 0⟩, ⟨"w", false, 0, 0, [("5", "t")]⟩⟩ ∧
    (⟨"w", false, 0, 0, [("5", "t")]⟩ : WinState).hasKey
      (toString ((if (999 : Nat) < 999 then 5 else 7) % 0x100000)) = false := by
  have hz : (keyLoop ⟨"w", false, 0, 0, [("5", "t")]⟩
      (fun i => if i < 999 then 5 else 7) 0 1000).2 = 0 :=
    (keyLoop_zero_iff ⟨"w", false, 0, 0, [("5", "t")]⟩
        (fun i => if i < 999 then 5 else 7) 999 0).mpr
      (fun j hj => by
        have hlt : ((0 + j : Nat) < 999) = True := by simp [hj]
        simp only [hlt, if_true]
        decide)
  refine ⟨hz, ?_, by decide⟩
  unfold Show
  rw [if_neg (by simp)]
  dsimp only
  rw [if_pos hz]

/-- C1 (amended) — `HaltClient` ignores every tag that does not start with
`"pid:"`; on a `"pid:"` tag whose remainder parses as an `int` it sends
`SIGKILL` exactly when the pid is positive; but on a `"pid:"` tag whose
remainder does *not* parse, `std::stoi` throws and the exception propagates to
the caller. -/
theorem haltClient_behavior (s : String) :
    (¬ strStarts s "pid:" = true → HaltClient s = .ok .ignored) ∧
    (∀ p : Int, strStarts s "pid:" = true → stoi (strDrop s 4) = some p →
      HaltClient s = .ok (if 0 < p then .killed p else .noSignal p)) ∧
    (strStarts s "pid:" = true → stoi (strDrop s 4) = none →
      HaltClient s = .error ()) := by
  unfold HaltClient
  refine ⟨?_, ?_, ?_⟩
  · intro h
    rw [if_pos h]
  · intro p hs hp
    rw [if_neg (by simp [hs]), hp]
  · intro hs hp
    rw [if_neg (by simp [hs]), hp]

/-- C1 witness: `"pid:7"` gets killed, `"cef"` is ignored. -/
theorem haltClient_behavior_witness :
    HaltClient "pid:7" = .ok (if 0 < (7 : Int) then .killed 7 else .noSignal 7) ∧
    HaltClient "cef" = .ok .ignored :=
  ⟨(haltClient_behavior "pid:7").2.1 7 (by decide) (by decide),
   (haltClient_behavior "cef").1 (by decide)⟩

/-- C1 counterexample: the claim says an invalid/garbage tag is silently
ignored and `HaltClient` never raises; but on `"pid:x"` the `std::stoi` call
throws (`std::invalid_argument`), which propagates to the caller. -/
theorem haltClient_raises_cx : HaltClient "pid:x" = .error () := rfl

lemma waitForLoop_first (check : ℚ → Int) (elapsed : Nat → ℚ) (tl : ℚ) :
    ∀ k fuel cnt, k < fuel →
      (∀ j, j < k → check (spentAt elapsed (cnt + j)) = 0) →
      (∀ j, j < k → ¬(0 < tl ∧ tl < elapsed (cnt + j))) →
      check (spentAt elapsed (cnt + k)) ≠ 0 →
      waitForLoop check elapsed tl fuel cnt = some (check (spentAt elapsed (cnt + k))) := by
  intro k
  induction k with
  | zero =>
    intro fuel cnt hf _ _ hnz
    obtain ⟨f, rfl⟩ : ∃ f, fuel = f + 1 := ⟨fuel - 1, by omega⟩
    simp only [waitForLoop]
    rw [if_pos (by simpa using hnz)]
    simp
  | succ k ih =>
    intro fuel cnt hf h0 ht hnz
    obtain ⟨f, rfl⟩ : ∃ f, fuel = f + 1 := ⟨fuel - 1, by omega⟩
    have hz : check (spentAt elapsed cnt) = 0 := by
      have := h0 0 (by omega)
      rwa [Nat.add_zero] at this
    have hnt : ¬(0 < tl ∧ tl < elapsed cnt) := by
      have := ht 0 (by omega)
      rwa [Nat.add_zero] at this
    simp only [waitForLoop]
    rw [if_neg (by simp [hz]), if_neg hnt]
    have hrw : cnt + 1 + k = cnt + (k + 1) := by omega
    have := ih f (cnt + 1) (by omega)
      (fun j hj => by
        have := h0 (j + 1) (by omega)
        rwa [show cnt + (j + 1) = cnt + 1 + j from by omega] at this)
      (fun j hj => by
        have := ht (j + 1) (by omega)
        rwa [show cnt + (j + 1) = cnt + 1 + j from by omega] at this)
      (by rwa [hrw])
    rwa [hrw] at this

lemma waitForLoop_timeout (check : ℚ → Int) (elapsed : Nat → ℚ) (tl : ℚ)
    (hall : ∀ j, check (spentAt elapsed j) = 0) (hpos : 0 < tl) :
    ∀ fuel cnt, (∃ k, k < fuel ∧ tl < elapsed (cnt + k)) →
      waitForLoop check elapsed tl fuel cnt = some 0 := by
  intro fuel
  induction fuel with
  | zero =>
    intro cnt h
    obtain ⟨k, hk, _⟩ := h
    omega
  | succ f ih =>
    intro cnt h
    obtain ⟨k, hk, hkt⟩ := h
    simp only [waitForLoop]
    rw [if_neg (by simp [hall cnt])]
    by_cases hc : 0 < tl ∧ tl < elapsed cnt
    · rw [if_pos hc]
    · rw [if_neg hc]
      apply ih
      rcases k with _ | k
      · exact absurd ⟨hpos, by simpa using hkt⟩ hc
      · exact ⟨k, by omega, by rwa [show cnt + 1 + k = cnt + (k + 1) from by omega]⟩

/-- C5 — `WaitFor` returns the predicate's first non-zero result immediately;
with a positive (effective) time limit it returns `0` once the elapsed time
exceeds the limit while the predicate keeps returning zero; and a negative
`timelimit` argument is replaced by the configured default. -/
theorem waitFor_semantics (check : ℚ → Int) (elapsed : Nat → ℚ) (t d : ℚ) (fuel : Nat) :
    (∀ k, k < fuel →
      (∀ j, j < k → check (spentAt elapsed j) = 0) →
      (∀ j, j < k → ¬(0 < (if t < 0 then d else t) ∧ (if t < 0 then d else t) < elapsed j)) →
      check (spentAt elapsed k) ≠ 0 →
      WaitFor check elapsed t d fuel = some (check (spentAt elapsed k))) ∧
    ((∀ j, check (spentAt elapsed j) = 0) → 0 < (if t < 0 then d else t) →
      (∃ k, k < fuel ∧ (if t < 0 then d else t) < elapsed k) →
      WaitFor check elapsed t d fuel = some 0) ∧
    (t < 0 → WaitFor check elapsed t d fuel = WaitFor check elapsed d d fuel) := by
  refine ⟨?_, ?_, ?_⟩
  · intro k hk h0 ht hnz
    unfold WaitFor
    have := waitForLoop_first check elapsed (if t < 0 then d else t) k fuel 0 hk
      (by simpa using h0) (by simpa using ht) (by simpa using hnz)
    simpa using this
  · intro hall hpos h
    obtain ⟨k, hk, hkt⟩ := h
    unfold WaitFor
    exact waitForLoop_timeout check elapsed _ hall hpos fuel 0 ⟨k, hk, by simpa using hkt⟩
  · intro hneg
    unfold WaitFor
    rw [if_pos hneg, ite_self]

/-- C5 witness: a predicate that is non-zero at once returns that value; an
always-zero predicate times out to `0`; a negative limit behaves like the
default. -/
theorem waitFor_semantics_witness :
    WaitFor (fun _ => 7) (fun _ => (4 : ℚ)) 100 50 10 = some 7 ∧
    WaitFor (fun _ => 0) (fun _ => (4 : ℚ)) 3 50 10 = some 0 ∧
    WaitFor (fun _ => 0) (fun _ => (4 : ℚ)) (-1) 3 10 =
      WaitFor (fun _ => 0) (fun _ => (4 : ℚ)) 3 3 10 :=
  ⟨(waitFor_semantics _ _ 100 50 10).1 0 (by omega)
      (fun j hj => absurd hj (by omega)) (fun j hj => absurd hj (by omega)) (by decide),
   (waitFor_semantics _ _ 3 50 10).2.1 (fun _ => rfl) (by decide) ⟨0, by omega, by decide⟩,
   (waitFor_semantics _ _ (-1) 3 10).2.2 (by decide)⟩

lemma createHttpServer_noHttp (cfg : HttpCfg) (engineOk : Int → Bool) (rand : Nat → Nat)
    (st : MgrState) :
    CreateHttpServer cfg engineOk rand st false = ⟨true, { st with hasServer := true }, 0⟩ := by
  unfold CreateHttpServer
  rw [if_pos (Or.inl (by simp))]

lemma createWindow_eq (cfg : HttpCfg) (engineOk : Int → Bool) (rand : Nat → Nat)
    (st : MgrState) :
    CreateWindow cfg engineOk rand st = (some (st.idCnt + 1), ⟨true, st.addr, st.idCnt + 1⟩) := by
  unfold CreateWindow
  rw [createHttpServer_noHttp]
  rfl

lemma runOps_invariant (cfg : HttpCfg) (engineOk : Int → Bool) (rand : Nat → Nat) :
    ∀ ops st issued, List.Pairwise (· < ·) issued → (∀ i ∈ issued, i ≤ st.idCnt) →
      List.Pairwise (· < ·) (runOps cfg engineOk rand st issued ops).2 ∧
      (∀ i ∈ (runOps cfg engineOk rand st issued ops).2,
        i ≤ (runOps cfg engineOk rand st issued ops).1.idCnt) := by
  intro ops
  induction ops with
  | nil =>
    intro st issued hp hb
    exact ⟨hp, hb⟩
  | cons op rest ih =>
    intro st issued hp hb
    cases op with
    | create =>
      simp only [runOps, createWindow_eq]
      apply ih
      · rw [List.pairwise_append]
        refine ⟨hp, List.pairwise_singleton _ _, ?_⟩
        intro a ha b hbm
        simp only [List.mem_singleton] at hbm
        have := hb a ha
        omega
      · intro i hi
        rcases List.mem_append.mp hi with hi | hi
        · have := hb i hi
          simp only
          omega
        · simp only [List.mem_singleton] at hi
          simp only
          omega
    | destroy id =>
      simp only [runOps, Unregister]
      exact ih st issued hp hb

/-- C9 — for any sequence of window creations and destructions, the issued
window ids are strictly increasing (each assigned once, never reused), and the
id the next creation would assign (`fIdCnt + 1`) exceeds every id issued so
far — destructions never free an id. -/
theorem window_ids_monotonic (cfg : HttpCfg) (engineOk : Int → Bool) (rand : Nat → Nat)
    (st0 : MgrState) (ops : List MgrOp) :
    List.Pairwise (· < ·) (runOps cfg engineOk rand st0 [] ops).2 ∧
    ∀ i ∈ (runOps cfg engineOk rand st0 [] ops).2,
      i < (runOps cfg engineOk rand st0 [] ops).1.idCnt + 1 := by
  obtain ⟨h1, h2⟩ := runOps_invariant cfg engineOk rand ops st0 [] List.Pairwise.nil (by simp)
  refine ⟨h1, fun i hi => ?_⟩
  have := h2 i hi
  omega

/-- C9 witness: after create, create, destroy, create the issued id `2` is
still below the next id to be assigned. -/
theorem window_ids_monotonic_witness :
    2 < (runOps ⟨0, 8800, 9800, false, "", false, "pem"⟩ (fun _ => false) (fun _ => 0)
      ⟨false, "", 0⟩ [] [MgrOp.create, MgrOp.create, MgrOp.destroy 1, MgrOp.create]).1.idCnt + 1 :=
  (window_ids_monotonic _ _ _ _ _).2 2 (by decide)

end WebGui
